import Mathlib

/-!
Verification of the TravelNest asynchronous messaging layer and idempotency
ledger: a shallow embedding of the RabbitMQ configuration, the publisher,
the connection manager, the retrying-consumer protocol and the webhook
idempotency pipeline, together with theorems about the properties the
design document states.
-/

/-! ## Configuration (`server/config/rabbitmq.config.js`) -/

structure SocketOptions where
  heartbeatIntervalInSeconds : Nat
  reconnectTimeInSeconds : Nat
deriving Repr, DecidableEq

structure QueueOptions where
  durable : Bool
deriving Repr, DecidableEq

structure ConsumerOptions where
  noAck : Bool
deriving Repr, DecidableEq

structure PublishOptions where
  persistent : Bool
deriving Repr, DecidableEq

structure RetryConfig where
  maxRetries : Nat
  delayMs : Nat
deriving Repr, DecidableEq

structure RabbitMQConfig where
  socketOptions : SocketOptions
  queueOptions : QueueOptions
  consumerOptions : ConsumerOptions
  publishOptions : PublishOptions
  retry : RetryConfig
deriving Repr, DecidableEq

/-- The configuration object of `rabbitmq.config.js` (the broker URL is
environment dependent and not idempotency relevant, so it is omitted). -/
def config : RabbitMQConfig :=
  { socketOptions := { heartbeatIntervalInSeconds := 30, reconnectTimeInSeconds := 10 }
  , queueOptions := { durable := true }
  , consumerOptions := { noAck := false }
  , publishOptions := { persistent := true }
  , retry := { maxRetries := 5, delayMs := 60000 } }

/-! ## Publisher (`rabbitmq.utils.js`: `publishToQueue`, `publishBatchToQueue`) -/

/-- The priority clamp of `sendToQueue`:
`Math.min(Math.max(priority, 0), 10)`. -/
def clampPriority (p : Int) : Int :=
  min (max p 0) 10

/-- JavaScript falsy-or of `const msgId = messageId || uuidv4()`.  A `null`
(omitted) or empty-string `messageId` is replaced by the freshly generated
identifier, any other string is kept. -/
def msgIdOf (messageId : Option String) (fresh : String) : String :=
  match messageId with
  | none => fresh
  | some s => if s = "" then fresh else s

/-- The options object passed to `channel.sendToQueue`. -/
structure SendOptions where
  persistent : Bool
  priority : Int
  messageId : String
  timestamp : Nat
  contentType : String
  headerPriority : String
  headerTimestamp : String
deriving Repr, DecidableEq

/-- Builds the `sendToQueue` options exactly as `publishToQueue` and
`publishBatchToQueue` do: persistent flag from the config, clamped AMQP
priority, and application headers carrying the original (unclamped)
priority and the timestamp as strings. -/
def sendOptions (priority : Int) (msgId : String) (timestamp : Nat) : SendOptions :=
  { persistent := config.publishOptions.persistent
  , priority := clampPriority priority
  , messageId := msgId
  , timestamp := timestamp
  , contentType := "application/json"
  , headerPriority := toString priority
  , headerTimestamp := toString timestamp }

/-- A message as handed to the broker. -/
structure SentMessage where
  queue : String
  payload : String
  opts : SendOptions
deriving Repr, DecidableEq

/-- Embeds `publishToQueue(queue, message, priority = 5, messageId = null)`.
`fresh` stands for the output of `uuidv4()` and `now` for `Date.now()`;
the serialized payload is taken as given.  The function is total in
`priority`: out-of-range values are clamped, never rejected. -/
def publishToQueue (queue : String) (message : String) (priority : Int := 5)
    (messageId : Option String := none) (fresh : String) (now : Nat) : SentMessage :=
  { queue := queue
  , payload := message
  , opts := sendOptions priority (msgIdOf messageId fresh) now }

/-- Embeds `publishBatchToQueue(queue, messages, priority = 5)`: every message of
the batch gets its own generated identifier (`freshIds` stands for the
successive outputs of `uuidv4()`), and all share the batch timestamp. -/
def publishBatchToQueue (queue : String) (messages : List String) (priority : Int := 5)
    (freshIds : List String) (now : Nat) : List SentMessage :=
  (messages.zip freshIds).map fun mi =>
    { queue := queue
    , payload := mi.1
    , opts := sendOptions priority mi.2 now }

/-! ### Backpressure traces

`publishToQueue` checks the boolean returned by `channel.sendToQueue` and,
when it is `false` (outbound buffer full), awaits the channel's `drain`
event before continuing; `publishBatchToQueue` performs the same check
inside its per-message loop.  We record the order of these interactions as
a trace of events. -/

inductive PubEvent
  | send (i : Nat)
  | waitDrain
  | ret
deriving Repr, DecidableEq

/-- One `sendToQueue` interaction for message `i`: the send, followed by a
drain wait exactly when the send reported a full buffer. -/
def sendSegment (i : Nat) (sent : Bool) : List PubEvent :=
  .send i :: (if sent then [] else [.waitDrain])

/-- The broker-interaction trace of `publishToQueue`, given the boolean the
underlying send returned. -/
def publishTrace (sent : Bool) : List PubEvent :=
  sendSegment 0 sent ++ [.ret]

/-- The per-message segments of `publishBatchToQueue`'s loop, starting at
message index `i`; `results` lists the booleans returned by the successive
sends. -/
def batchSegments (i : Nat) : List Bool → List PubEvent
  | [] => []
  | b :: rest => sendSegment i b ++ batchSegments (i + 1) rest

/-- The broker-interaction trace of `publishBatchToQueue`. -/
def publishBatchTrace (results : List Bool) : List PubEvent :=
  batchSegments 0 results ++ [.ret]

/-! ## Retrying Consumer protocol

The consumer source file (`rabbitmq/retryingConsumer.js`) is referenced by
`rabbitmq/index.js` but is not part of the sources at hand; the state
machine below is therefore modelled from the spec, while the retry
constants (`maxRetries = 5`, `delayMs = 60000`) come from
`rabbitmq.config.js`. -/

/-- Where a message currently sits. -/
inductive Loc
  | mainQ
  | retryQ
  | dlq
  | acked
deriving Repr, DecidableEq

/-- The per-message state of the retrying-consumer protocol: the
`retryCount` header, the queue the message sits in, and the (virtual)
time at which it became available there. -/
structure MsgState where
  retryCount : Nat
  loc : Loc
  time : Nat
deriving Repr, DecidableEq

/-- Modelled from the spec: one transition of the Retrying Consumer's
per-message state machine (the consumer implementation itself is not under
the sources at hand, only its re-exports and configuration are).  A
delivery from the main queue runs the handler: success acknowledges the
message; failure with `retryCount < maxRetries` republishes it to the
retry queue with `retryCount + 1`; failure with `retryCount >= maxRetries`
parks it in the dead-letter queue.  A retry-queue entry is redelivered to
the main queue after the configured delay.  The dead-letter queue and the
acknowledged state are terminal. -/
def consumeStep (cfg : RetryConfig) (handlerOk : Bool) (m : MsgState) : MsgState :=
  match m.loc with
  | .mainQ =>
      if handlerOk then { m with loc := .acked }
      else if m.retryCount < cfg.maxRetries then
        { m with retryCount := m.retryCount + 1, loc := .retryQ }
      else
        { m with loc := .dlq }
  | .retryQ => { m with loc := .mainQ, time := m.time + cfg.delayMs }
  | .dlq => m
  | .acked => m

/-- Runs `n` transitions of the protocol under a handler that always fails. -/
def failRun (cfg : RetryConfig) : Nat → MsgState → MsgState
  | 0, m => m
  | n + 1, m => failRun cfg n (consumeStep cfg false m)

/-- The states visited during `failRun` (including the initial one). -/
def failStates (cfg : RetryConfig) : Nat → MsgState → List MsgState
  | 0, m => [m]
  | n + 1, m => m :: failStates cfg n (consumeStep cfg false m)

/-- A fresh inbound message: `retryCount` starts at 0, on the main queue. -/
def freshMsg (t0 : Nat) : MsgState :=
  { retryCount := 0, loc := .mainQ, time := t0 }

/-! ## Idempotency Ledger (`repositories/webhook_event_log.repository.js`
and the `webhook_event_logs` model) -/

/-- The `status` enum of the `webhook_event_logs` model. -/
inductive WStatus
  | processing
  | processed
  | failed
deriving Repr, DecidableEq

/-- A row of `webhook_event_logs` (the surrogate `id` primary key is not
idempotency relevant and is omitted; `event_id` carries the uniqueness
constraint). -/
structure WebhookEventLog where
  event_id : String
  event_type : String
  provider : String
  payload : Option String
  status : WStatus
  error_message : Option String
  processed_at : Nat
  created_at : Nat
deriving Repr, DecidableEq

/-- The ledger table, in insertion order. -/
abbrev Ledger := List WebhookEventLog

/-- The argument object of `WebhookEventLogRepository.create`; optional
fields model the JavaScript `data.status || 'processed'`-style defaulting
performed by the repository. -/
structure WebhookEventData where
  eventId : String
  eventType : String
  provider : String
  payload : Option String := none
  processedAt : Option Nat := none
  status : Option WStatus := none
  errorMessage : Option String := none
deriving Repr, DecidableEq

/-- Embeds `WebhookEventLogRepository.findByEventId`, a `findOne` on `event_id`. -/
def WebhookEventLogRepository.findByEventId (db : Ledger) (eventId : String) :
    Option WebhookEventLog :=
  db.find? fun r => r.event_id == eventId

/-- Embeds `WebhookEventLogRepository.create`: inserts a row, defaulting `status`
to `processed`, `error_message` to `null` and `processed_at` to `new
Date()` when absent.  The unique constraint on `event_id` makes the insert
fail on a duplicate. -/
def WebhookEventLogRepository.create (db : Ledger) (data : WebhookEventData) (now : Nat) :
    Except String Ledger :=
  if db.any (fun r => r.event_id == data.eventId) then
    .error "unique constraint violation on event_id"
  else
    .ok (db ++ [{ event_id := data.eventId
                , event_type := data.eventType
                , provider := data.provider
                , payload := data.payload
                , status := data.status.getD .processed
                , error_message := data.errorMessage
                , processed_at := data.processedAt.getD now
                , created_at := now }])

/-- Embeds `WebhookEventLogRepository.updateStatus`: an `update` of `status` and
`error_message` on the rows selected by `event_id`. -/
def WebhookEventLogRepository.updateStatus (db : Ledger) (eventId : String) (status : WStatus)
    (errorMessage : Option String := none) : Ledger :=
  db.map fun r =>
    if r.event_id == eventId then
      { r with status := status, error_message := errorMessage }
    else r

/-! ## Webhook pipeline (`controllers/v1/stripeWebhook.controller.js`)

The controller delegates duplicate detection and event logging to
`StripeWebhookAdapter`, whose source is not among the sources at hand;
those two operations, and the status update performed after business
handling, are modelled from the spec.  The control flow (duplicate check
first with an early `200 {received, duplicate}` return, logging before
routing, `500` on a handler failure) is the controller's own. -/

/-- A webhook event after `verifyAndParse` succeeded. -/
structure StripeEvent where
  id : String
  type : String
  raw : String
deriving Repr, DecidableEq

/-- Modelled from the spec: `StripeWebhookAdapter.isDuplicate` (not under
the sources at hand; only its caller and the repository are): look up by
`eventId`; if a record exists, the inbound event is a duplicate. -/
def StripeWebhookAdapter.isDuplicate (db : Ledger) (eventId : String) : Bool :=
  (WebhookEventLogRepository.findByEventId db eventId).isSome

/-- Modelled from the spec: `StripeWebhookAdapter.logEvent` (not under the
sources at hand): create a record with status `processing` before business
handling runs; the provider is Stripe and the raw payload is retained. -/
def StripeWebhookAdapter.logEvent (db : Ledger) (eventId eventType raw : String) (now : Nat) :
    Except String Ledger :=
  WebhookEventLogRepository.create db
    { eventId := eventId
    , eventType := eventType
    , provider := "stripe"
    , payload := some raw
    , status := some .processing } now

/-- The HTTP responses the controller can produce once verification has
succeeded: `200 {received: true, duplicate?}` or `500`. -/
inductive WebhookResp
  | success (duplicate : Bool)
  | serverError
deriving Repr, DecidableEq

/-- The observable ledger/handler interactions of one webhook call, in
order. -/
inductive PipeAct
  | lookup (eventId : String)
  | createRec (eventId : String) (status : WStatus)
  | runHandler (eventId : String)
  | updateRec (eventId : String) (status : WStatus)
deriving Repr, DecidableEq

/-- The result of one webhook call: the HTTP response, the ledger after
the call, and the trace of ledger/handler interactions. -/
structure WebhookOutcome where
  resp : WebhookResp
  db : Ledger
  trace : List PipeAct
deriving Repr, DecidableEq

/-- Embeds `handleStripeWebhook` for an event that passed signature verification:
check for a duplicate (early `200` with the duplicate flag, no business
handling); otherwise log the event, run business handling (`handlerOk`
says whether the routed handler succeeds), and update the record's status
afterwards — `processed` on success, `failed` on a handler failure (the
post-handling status update is modelled from the spec, the handlers and
services being outside the sources at hand). -/
def handleStripeWebhook (db : Ledger) (e : StripeEvent) (handlerOk : Bool) (now : Nat) :
    WebhookOutcome :=
  if StripeWebhookAdapter.isDuplicate db e.id then
    { resp := .success true, db := db, trace := [.lookup e.id] }
  else
    match StripeWebhookAdapter.logEvent db e.id e.type e.raw now with
    | .error _ => { resp := .serverError, db := db, trace := [.lookup e.id] }
    | .ok db1 =>
        if handlerOk then
          { resp := .success false
          , db := WebhookEventLogRepository.updateStatus db1 e.id .processed none
          , trace := [.lookup e.id, .createRec e.id .processing, .runHandler e.id,
                      .updateRec e.id .processed] }
        else
          { resp := .serverError
          , db := WebhookEventLogRepository.updateStatus db1 e.id .failed (some "handler failed")
          , trace := [.lookup e.id, .createRec e.id .processing, .runHandler e.id,
                      .updateRec e.id .failed] }

/-! ## Connection Manager (`rabbitmq/connection.js`, class `RabbitMQConnection`)

The manager owns `connection` (here represented by the generation number
of the live connection), the `isConnecting` guard and the `channels` map
(name to channel; a channel is represented by the generation of the
connection it was opened on, which is what the reuse-across-generations
claims are about). -/

/-- The mutable state of the `RabbitMQConnection` singleton. -/
structure ConnMgrState where
  connection : Option Nat
  isConnecting : Bool
  channels : List (String × Nat)
  nextGen : Nat
deriving Repr, DecidableEq

/-- The constructor's state: no connection, not connecting, empty map. -/
def initialMgrState : ConnMgrState :=
  { connection := none, isConnecting := false, channels := [], nextGen := 0 }

/-! ### A single caller running `connect()`

`connect()` first checks `this.connection` (early return), then
`this.isConnecting` (poll every 100 ms until the in-flight attempt
finishes, then return `this.connection`), and only otherwise starts an
attempt of its own.  We give the caller a program counter and let the
environment (the rest of the process) supply the shared state seen at each
of the caller's steps. -/

inductive CallerPC
  | start
  | waiting
  | attempting
  | done
deriving Repr, DecidableEq

/-- What one step of a `connect()` caller does. -/
inductive ConnAct
  | ret (c : Option Nat)
  | poll
  | beginAttempt
deriving Repr, DecidableEq

/-- One step of `connect()` as seen from one caller, given the shared
state at that instant. -/
def connectStep (s : ConnMgrState) (pc : CallerPC) : ConnAct × CallerPC :=
  match pc with
  | .start =>
      match s.connection with
      | some c => (.ret (some c), .done)
      | none =>
          if s.isConnecting then (.poll, .waiting)
          else (.beginAttempt, .attempting)
  | .waiting =>
      if s.isConnecting then (.poll, .waiting)
      else (.ret s.connection, .done)
  | .attempting => (.ret s.connection, .done)
  | .done => (.ret s.connection, .done)

/-- The actions a single `connect()` caller performs, one per shared state
the environment exhibits, stopping once the call has returned. -/
def callerActions : List ConnMgrState → CallerPC → List ConnAct
  | [], _ => []
  | s :: rest, pc =>
      if pc = CallerPC.done then []
      else (connectStep s pc).1 :: callerActions rest (connectStep s pc).2

/-! ### The manager's shared-state transitions -/

/-- The events that mutate the manager's shared state: a connect attempt
succeeding, the broker signalling connection closure (the `close` handler
registered in `connect()`), `getChannel`, the per-channel `error`/`close`
handlers registered in `getChannel`, and `closeChannel`. -/
inductive MgrEvt
  | connectSuccess
  | closeSignal
  | getChannel (name : String)
  | chanError (name : String)
  | chanClose (name : String)
  | closeChannelEvt (name : String) (closeOk : Bool)
deriving Repr, DecidableEq

/-- What an event returns to its caller / schedules. -/
structure MgrObs where
  returnedChannel : Option (String × Nat) := none
  scheduledReconnectDelayMs : Option Nat := none
deriving Repr, DecidableEq

/-- Embeds `this.channels.get(name)` / `this.channels.has(name)` on the channel
map. -/
def lookupChan : List (String × Nat) → String → Option Nat
  | [], _ => none
  | p :: rest, name => if p.1 == name then some p.2 else lookupChan rest name

/-- Embeds `this.channels.delete(name)` on the channel map. -/
def deleteChan (chs : List (String × Nat)) (name : String) : List (String × Nat) :=
  chs.filter fun p => p.1 != name

/-- Embeds `closeChannel(name)`: if the name is cached, `await channel.close()`
and evict it from the map; a close error is caught and logged, so the
function never rejects — but then the eviction is skipped and the entry
stays in the map.  `closeOk` says whether the underlying close succeeded. -/
def RabbitMQConnection.closeChannel (s : ConnMgrState) (name : String) (closeOk : Bool) :
    Except String ConnMgrState :=
  match lookupChan s.channels name with
  | none => .ok s
  | some _ =>
      if closeOk then
        .ok { s with channels := deleteChan s.channels name }
      else
        .ok s

/-- One shared-state transition of the manager.  `connectSuccess` installs
a fresh connection generation and drops the `isConnecting` guard (a no-op
when a connection already exists, matching the early return).  The
connection `close` handler nulls the connection, clears every channel and
schedules a reconnect after `reconnectTimeInSeconds * 1000` ms.
`getChannel` returns the cached channel when present and otherwise opens a
channel on the current connection and caches it (when no connection exists
the real code first awaits `connect()`, i.e. a `connectSuccess` step
precedes this one).  The per-channel `error`/`close` handlers evict the
channel from the map. -/
def mgrStep (s : ConnMgrState) (e : MgrEvt) : ConnMgrState × MgrObs :=
  match e with
  | .connectSuccess =>
      if s.connection.isSome then (s, {})
      else
        ({ s with
            connection := some s.nextGen,
            nextGen := s.nextGen + 1,
            isConnecting := false }, {})
  | .closeSignal =>
      ({ s with connection := none, channels := [] },
       { scheduledReconnectDelayMs :=
           some (config.socketOptions.reconnectTimeInSeconds * 1000) })
  | .getChannel name =>
      match lookupChan s.channels name with
      | some g => (s, { returnedChannel := some (name, g) })
      | none =>
          match s.connection with
          | some g =>
              ({ s with channels := (name, g) :: s.channels },
               { returnedChannel := some (name, g) })
          | none => (s, {})
  | .chanError name => ({ s with channels := deleteChan s.channels name }, {})
  | .chanClose name => ({ s with channels := deleteChan s.channels name }, {})
  | .closeChannelEvt name ok =>
      match RabbitMQConnection.closeChannel s name ok with
      | .ok s1 => (s1, {})
      | .error _ => (s, {})

/-- Runs a list of manager events. -/
def runMgr (s : ConnMgrState) : List MgrEvt → ConnMgrState
  | [] => s
  | e :: es => runMgr (mgrStep s e).1 es

/-- A state the manager can actually be in. -/
def MgrReachable (s : ConnMgrState) : Prop :=
  ∃ es, runMgr initialMgrState es = s

/-- States that `bound` is a lower bound on every generation the state knows about:
the next generation to be handed out, the live connection's generation,
and the generation of every cached channel. -/
def genLB (bound : Nat) (s : ConnMgrState) : Prop :=
  bound ≤ s.nextGen
  ∧ (∀ g, s.connection = some g → bound ≤ g)
  ∧ ∀ p ∈ s.channels, bound ≤ p.2

/-- The live connection's generation is always below `nextGen`. -/
def connGenWF (s : ConnMgrState) : Prop :=
  ∀ g, s.connection = some g → g < s.nextGen

/-- A state used as the concrete counterexample for the `closeChannel`
eviction claim: the `publisher` channel is cached and its close fails. -/
def closeErrState : ConnMgrState :=
  { connection := some 0, isConnecting := false
  , channels := [("publisher", 0)], nextGen := 1 }

/-- The record that the webhook pipeline's `logEvent` writes for a fresh
event at time `now`. -/
def logRecord (e : StripeEvent) (now : Nat) : WebhookEventLog :=
  { event_id := e.id
  , event_type := e.type
  , provider := "stripe"
  , payload := some e.raw
  , status := .processing
  , error_message := none
  , processed_at := now
  , created_at := now }

/-- The `logRecord` after the post-handling status update. -/
def finalRecord (e : StripeEvent) (now : Nat) (st : WStatus) (em : Option String) :
    WebhookEventLog :=
  { logRecord e now with status := st, error_message := em }

/-- Whether a message currently sits on the main queue. -/
def MsgState.onMainQ (m : MsgState) : Bool :=
  match m.loc with
  | .mainQ => true
  | _ => false

/-- The times at which the message is available on the main queue during a
run of the protocol: one entry per main-queue delivery attempt. -/
def mainDeliveryTimes (cfg : RetryConfig) (n : Nat) (m : MsgState) : List Nat :=
  ((failStates cfg n m).filter MsgState.onMainQ).map fun s => s.time

/-! ## Theorems -/

/-! ### Publisher: priority clamping, message ids, headers, backpressure -/

theorem clampPriority_nonneg (p : Int) : 0 ≤ clampPriority p := by
  simp [clampPriority]

theorem clampPriority_le_ten (p : Int) : clampPriority p ≤ 10 := by
  simp [clampPriority]

theorem batch_priority_all (q : String) (msgs : List String) (p : Int)
    (fids : List String) (now : Nat) :
    ((publishBatchToQueue q msgs p fids now).all
      fun sm => sm.opts.priority == clampPriority p) = true := by
  rw [List.all_eq_true]
  intro sm hsm
  rw [publishBatchToQueue, List.mem_map] at hsm
  obtain ⟨mi, _, rfl⟩ := hsm
  simp [sendOptions]

/-- Claim C4: for every integer priority `p` passed to publish (single or
batch), the stored AMQP priority of the sent message equals
`clamp(p, 0, 10)`; in particular `p = -5` is stored as `0` and `p = 99`
as `10`, and out-of-range values are clamped, never rejected (the publish
functions are total in `p` and always produce the message). -/
theorem publish_priority_clamped (q m : String) (p : Int) (mid : Option String)
    (fresh : String) (now : Nat) (msgs : List String) (fids : List String) :
    (publishToQueue q m p mid fresh now).opts.priority = clampPriority p
    ∧ ((publishBatchToQueue q msgs p fids now).all
        fun sm => sm.opts.priority == clampPriority p) = true
    ∧ (publishToQueue q m (-5) mid fresh now).opts.priority = 0
    ∧ (publishToQueue q m 99 mid fresh now).opts.priority = 10
    ∧ clampPriority p = min (max p 0) 10
    ∧ 0 ≤ clampPriority p ∧ clampPriority p ≤ 10 := by
  refine ⟨rfl, batch_priority_all q msgs p fids now, ?_, ?_, rfl,
    clampPriority_nonneg p, clampPriority_le_ten p⟩
  · show clampPriority (-5) = 0
    decide
  · show clampPriority 99 = 10
    decide

/-- Counterexample to claim C5 as stated: the supplied `messageId` `""` is
not attached unchanged — `messageId || uuidv4()` treats the empty string
as falsy and replaces it by the generated identifier. -/
theorem supplied_empty_messageId_replaced :
    (publishToQueue "image.processing" "payload" 5 (some "") "generated-uuid" 0).opts.messageId
      = "generated-uuid"
    ∧ "generated-uuid" ≠ "" := by
  exact ⟨rfl, by decide⟩

/-- Claim C5 (amended): if `messageId` is omitted, the generated fresh
identifier is attached; if a non-empty `messageId` is supplied, it is
attached unchanged.  (A supplied empty string is falsy in JavaScript and
is replaced by a generated identifier, so the unamended claim fails on
it.) -/
theorem publish_messageId (q m : String) (p : Int) (fresh : String) (now : Nat) :
    (publishToQueue q m p none fresh now).opts.messageId = fresh
    ∧ ∀ s : String, s ≠ "" →
        (publishToQueue q m p (some s) fresh now).opts.messageId = s := by
  refine ⟨rfl, fun s hs => ?_⟩
  show msgIdOf (some s) fresh = s
  simp [msgIdOf, hs]

theorem publish_messageId_witness :
    (publishToQueue "image.processing" "payload" 8 none "uuid-1" 0).opts.messageId = "uuid-1"
    ∧ (publishToQueue "image.processing" "payload" 8 (some "m1") "uuid-1" 0).opts.messageId
        = "m1" :=
  ⟨(publish_messageId "image.processing" "payload" 8 "uuid-1" 0).1,
   (publish_messageId "image.processing" "payload" 8 "uuid-1" 0).2 "m1" (by decide)⟩

theorem batch_headerPriority_all (q : String) (msgs : List String) (p : Int)
    (fids : List String) (now : Nat) :
    ((publishBatchToQueue q msgs p fids now).all
      fun sm => sm.opts.headerPriority == toString p) = true := by
  rw [List.all_eq_true]
  intro sm hsm
  rw [publishBatchToQueue, List.mem_map] at hsm
  obtain ⟨mi, _, rfl⟩ := hsm
  simp [sendOptions]

/-- Claim C10: for every publish (single or batch), the application
headers carry the original caller-supplied priority converted to a string
without clamping, so for an out-of-range input the stored header value
differs from the clamped AMQP priority attached to the same message. -/
theorem headers_carry_unclamped_priority (q m : String) (p : Int) (mid : Option String)
    (fresh : String) (now : Nat) (msgs : List String) (fids : List String) :
    (publishToQueue q m p mid fresh now).opts.headerPriority = toString p
    ∧ ((publishBatchToQueue q msgs p fids now).all
        fun sm => sm.opts.headerPriority == toString p) = true
    ∧ ((p < 0 ∨ 10 < p) → p ≠ (publishToQueue q m p mid fresh now).opts.priority)
    ∧ (publishToQueue q m (-5) mid fresh now).opts.headerPriority
        ≠ toString (publishToQueue q m (-5) mid fresh now).opts.priority
    ∧ (publishToQueue q m 99 mid fresh now).opts.headerPriority
        ≠ toString (publishToQueue q m 99 mid fresh now).opts.priority := by
  refine ⟨rfl, batch_headerPriority_all q msgs p fids now, ?_, ?_, ?_⟩
  · intro hp
    show p ≠ clampPriority p
    rw [clampPriority]
    rcases hp with hneg | hbig
    · rw [max_eq_right hneg.le]
      omega
    · have hmax : max p 0 = p := max_eq_left (by omega)
      rw [hmax, min_eq_right hbig.le]
      omega
  · show toString (-5 : Int) ≠ toString (clampPriority (-5))
    decide
  · show toString (99 : Int) ≠ toString (clampPriority 99)
    decide

theorem headers_carry_unclamped_priority_witness :
    ((99 : Int) < 0 ∨ (10 : Int) < 99)
    ∧ (99 : Int) ≠ (publishToQueue "q" "m" 99 none "uuid-1" 0).opts.priority :=
  ⟨Or.inr (by decide),
   (headers_carry_unclamped_priority "q" "m" 99 none "uuid-1" 0 [] [] ).2.2.1
     (Or.inr (by decide))⟩

theorem batchSegments_waitDrain (l : List Bool) :
    ∀ j i, l[i]? = some false →
      ∃ pre suf, batchSegments j l
        = pre ++ PubEvent.send (j + i) :: PubEvent.waitDrain :: suf := by
  induction l with
  | nil => intro j i h; simp at h
  | cons b rest ih =>
      intro j i h
      cases i with
      | zero =>
          simp at h
          subst h
          exact ⟨[], batchSegments (j + 1) rest, by simp [batchSegments, sendSegment]⟩
      | succ i =>
          simp at h
          obtain ⟨pre, suf, hps⟩ := ih (j + 1) i h
          refine ⟨sendSegment j b ++ pre, suf, ?_⟩
          rw [batchSegments, hps]
          simp
          omega

/-- Claim C8: a send that reports a full outbound buffer is followed by a
drain wait before the publish call returns, and in a batch the drain wait
happens immediately after each such send (per message), not once at the
end of the batch. -/
theorem backpressure_per_message (results : List Bool) (i : Nat)
    (h : results[i]? = some false) :
    publishTrace false = [PubEvent.send 0, PubEvent.waitDrain, PubEvent.ret]
    ∧ publishTrace true = [PubEvent.send 0, PubEvent.ret]
    ∧ ∃ pre suf, publishBatchTrace results
        = pre ++ PubEvent.send i :: PubEvent.waitDrain :: suf := by
  refine ⟨rfl, rfl, ?_⟩
  obtain ⟨pre, suf, hps⟩ := batchSegments_waitDrain results 0 i h
  refine ⟨pre, suf ++ [PubEvent.ret], ?_⟩
  rw [publishBatchTrace, hps]
  simp

theorem backpressure_per_message_witness :
    ([true, false, true][1]? = some false)
    ∧ (publishTrace false = [PubEvent.send 0, PubEvent.waitDrain, PubEvent.ret]
      ∧ publishTrace true = [PubEvent.send 0, PubEvent.ret]
      ∧ ∃ pre suf, publishBatchTrace [true, false, true]
          = pre ++ PubEvent.send 1 :: PubEvent.waitDrain :: suf) :=
  ⟨rfl, backpressure_per_message [true, false, true] 1 rfl⟩

/-! ### Retrying Consumer: bounded retries, fixed delay, terminal DLQ -/

theorem consumeStep_retryCount_le (cfg : RetryConfig) (h : Bool) (m : MsgState)
    (hm : m.retryCount ≤ cfg.maxRetries) :
    (consumeStep cfg h m).retryCount ≤ cfg.maxRetries := by
  cases hl : m.loc <;> simp [consumeStep, hl]
  case mainQ =>
    split_ifs with h1 h2
    · simpa using hm
    · simp
      omega
    · simpa using hm
  all_goals exact hm

theorem failRun_retryCount_le (cfg : RetryConfig) (n : Nat) (m : MsgState)
    (hm : m.retryCount ≤ cfg.maxRetries) :
    (failRun cfg n m).retryCount ≤ cfg.maxRetries := by
  induction n generalizing m with
  | zero => exact hm
  | succ n ih => exact ih _ (consumeStep_retryCount_le cfg false m hm)

theorem dlq_absorbing (cfg : RetryConfig) (h : Bool) (m : MsgState)
    (hm : m.loc = Loc.dlq) : consumeStep cfg h m = m := by
  simp [consumeStep, hm]

theorem failRun_fixed_of_dlq (cfg : RetryConfig) (k : Nat) (m : MsgState)
    (hm : m.loc = Loc.dlq) : failRun cfg k m = m := by
  induction k with
  | zero => rfl
  | succ k ih => rw [failRun, dlq_absorbing cfg false m hm]; exact ih

/-- Claim C3: under the configured retry policy (`maxRetries = 5`,
`delayMs = 60000`), a message whose handler always fails is delivered on
the main queue six times — the original attempt plus exactly five
retries, successive deliveries separated by the 60000 ms delay — then
lands in the dead-letter queue with `retryCount = maxRetries = 5`; its
`retryCount` never exceeds the configured maximum, and from the
dead-letter queue it is never redelivered (the DLQ is absorbing). -/
theorem retry_bound (t0 : Nat) :
    config.retry.maxRetries = 5
    ∧ config.retry.delayMs = 60000
    ∧ failRun config.retry 11 (freshMsg t0)
        = { retryCount := 5, loc := Loc.dlq, time := t0 + 300000 }
    ∧ mainDeliveryTimes config.retry 11 (freshMsg t0)
        = [t0, t0 + 60000, t0 + 120000, t0 + 180000, t0 + 240000, t0 + 300000]
    ∧ (∀ n, (failRun config.retry n (freshMsg t0)).retryCount ≤ config.retry.maxRetries)
    ∧ (∀ h m, m.loc = Loc.dlq → consumeStep config.retry h m = m)
    ∧ (∀ k, failRun config.retry k (failRun config.retry 11 (freshMsg t0))
        = failRun config.retry 11 (freshMsg t0)) := by
  refine ⟨rfl, rfl, ?_, ?_, ?_, ?_, ?_⟩
  · simp [failRun, consumeStep, freshMsg, config, Nat.add_assoc]
  · simp [mainDeliveryTimes, failStates, consumeStep, freshMsg, config,
      MsgState.onMainQ, Nat.add_assoc]
  · intro n
    exact failRun_retryCount_le config.retry n (freshMsg t0) (by simp [freshMsg])
  · exact fun h m hm => dlq_absorbing config.retry h m hm
  · intro k
    apply failRun_fixed_of_dlq
    have : failRun config.retry 11 (freshMsg t0)
        = { retryCount := 5, loc := Loc.dlq, time := t0 + 300000 } := by
      simp [failRun, consumeStep, freshMsg, config, Nat.add_assoc]
    rw [this]

theorem retry_bound_witness :
    (MsgState.mk 5 Loc.dlq 300000).loc = Loc.dlq
    ∧ consumeStep config.retry true (failRun config.retry 11 (freshMsg 0))
        = failRun config.retry 11 (freshMsg 0)
    ∧ failRun config.retry 11 (freshMsg 0)
        = { retryCount := 5, loc := Loc.dlq, time := 300000 } :=
  ⟨rfl,
   (retry_bound 0).2.2.2.2.2.1 true (failRun config.retry 11 (freshMsg 0)) (by decide),
   (retry_bound 0).2.2.1⟩

/-! ### Idempotency Ledger and webhook pipeline -/

theorem no_match_of_findByEventId_none (db : Ledger) (eid : String)
    (h : WebhookEventLogRepository.findByEventId db eid = none) :
    ∀ r ∈ db, (r.event_id == eid) = false := by
  intro r hr
  rw [WebhookEventLogRepository.findByEventId, List.find?_eq_none] at h
  exact Bool.eq_false_iff.mpr (h r hr)

theorem ledger_any_eq_false (db : Ledger) (eid : String)
    (h : WebhookEventLogRepository.findByEventId db eid = none) :
    (db.any fun r => r.event_id == eid) = false := by
  rw [Bool.eq_false_iff]
  intro hany
  rw [List.any_eq_true] at hany
  obtain ⟨r, hr, hp⟩ := hany
  rw [no_match_of_findByEventId_none db eid h r hr] at hp
  exact Bool.false_ne_true hp

theorem logEvent_of_new (db : Ledger) (e : StripeEvent) (now : Nat)
    (h : WebhookEventLogRepository.findByEventId db e.id = none) :
    StripeWebhookAdapter.logEvent db e.id e.type e.raw now
      = .ok (db ++ [logRecord e now]) := by
  rw [StripeWebhookAdapter.logEvent, WebhookEventLogRepository.create,
    ledger_any_eq_false db e.id h]
  rfl

theorem updateStatus_no_match (db : Ledger) (eid : String) (st : WStatus)
    (em : Option String) (h : ∀ r ∈ db, (r.event_id == eid) = false) :
    WebhookEventLogRepository.updateStatus db eid st em = db := by
  induction db with
  | nil => rfl
  | cons r rest ih =>
      have hr : (r.event_id == eid) = false := h r (List.mem_cons_self r rest)
      have hrest := ih fun x hx => h x (List.mem_cons_of_mem r hx)
      rw [WebhookEventLogRepository.updateStatus] at hrest ⊢
      rw [List.map_cons, hr, hrest]
      simp

theorem updateStatus_append_single (db : Ledger) (e : StripeEvent) (now : Nat)
    (st : WStatus) (em : Option String)
    (h : ∀ r ∈ db, (r.event_id == e.id) = false) :
    WebhookEventLogRepository.updateStatus (db ++ [logRecord e now]) e.id st em
      = db ++ [finalRecord e now st em] := by
  rw [WebhookEventLogRepository.updateStatus, List.map_append]
  have hdb : db.map (fun r =>
      if r.event_id == e.id then { r with status := st, error_message := em } else r) = db :=
    updateStatus_no_match db e.id st em h
  rw [hdb]
  congr 1
  simp [logRecord, finalRecord]

theorem filter_no_match (db : Ledger) (eid : String)
    (h : ∀ r ∈ db, (r.event_id == eid) = false) :
    (db.filter fun r => r.event_id == eid) = [] := by
  induction db with
  | nil => rfl
  | cons r rest ih =>
      rw [List.filter_cons, h r (List.mem_cons_self r rest)]
      exact ih fun x hx => h x (List.mem_cons_of_mem r hx)

theorem find?_append_of_none (db : Ledger) (r : WebhookEventLog)
    (p : WebhookEventLog → Bool) (h : db.find? p = none) (hp : p r = true) :
    (db ++ [r]).find? p = some r := by
  induction db with
  | nil => simp [List.find?, hp]
  | cons x rest ih =>
      rw [List.find?_cons] at h
      rw [List.cons_append, List.find?_cons]
      cases hx : p x with
      | true => rw [hx] at h; exact absurd h (by simp)
      | false => rw [hx] at h; exact ih h

/-- The pipeline's behaviour on a fresh (non-duplicate) event: one
create-with-`processing`, the business handler, then the status update —
and the corresponding response and final ledger. -/
theorem handle_new (db : Ledger) (e : StripeEvent) (hOk : Bool) (now : Nat)
    (h : WebhookEventLogRepository.findByEventId db e.id = none) :
    handleStripeWebhook db e hOk now
      = { resp := if hOk then .success false else .serverError
        , db := db ++ [finalRecord e now (if hOk then .processed else .failed)
            (if hOk then none else some "handler failed")]
        , trace := [.lookup e.id, .createRec e.id .processing, .runHandler e.id,
            .updateRec e.id (if hOk then .processed else .failed)] } := by
  have hdup : StripeWebhookAdapter.isDuplicate db e.id = false := by
    rw [StripeWebhookAdapter.isDuplicate, h]
    rfl
  have hnm := no_match_of_findByEventId_none db e.id h
  rw [handleStripeWebhook, hdup, if_neg (by simp), logEvent_of_new db e now h]
  cases hOk with
  | true =>
      simp only [if_true]
      rw [updateStatus_append_single db e now .processed none hnm]
  | false =>
      simp only [if_false, Bool.false_eq_true]
      rw [updateStatus_append_single db e now .failed (some "handler failed") hnm]

/-- Claim C2: for every non-duplicate inbound webhook event, the pipeline
performs the two-phase write on the ledger — it creates the record with
status `processing` before running business handling, and afterwards
updates that record's status to `processed` on success or `failed` on a
handler failure (visible both in the interaction trace and in the final
ledger). -/
theorem two_phase_write (db : Ledger) (e : StripeEvent) (hOk : Bool) (now : Nat)
    (h : WebhookEventLogRepository.findByEventId db e.id = none) :
    (handleStripeWebhook db e hOk now).trace
      = [.lookup e.id, .createRec e.id .processing, .runHandler e.id,
         .updateRec e.id (if hOk then .processed else .failed)]
    ∧ (handleStripeWebhook db e hOk now).db
      = db ++ [finalRecord e now (if hOk then .processed else .failed)
          (if hOk then none else some "handler failed")] := by
  rw [handle_new db e hOk now h]
  exact ⟨rfl, rfl⟩

theorem two_phase_write_witness :
    (WebhookEventLogRepository.findByEventId [] "evt_1" = none)
    ∧ (handleStripeWebhook [] ⟨"evt_1", "payment_intent.succeeded", "payload"⟩ true 7).trace
        = [.lookup "evt_1", .createRec "evt_1" .processing, .runHandler "evt_1",
           .updateRec "evt_1" .processed] := by
  refine ⟨rfl, ?_⟩
  have h := (two_phase_write [] ⟨"evt_1", "payment_intent.succeeded", "payload"⟩ true 7 rfl).1
  simpa using h

/-- Claim C1: starting from a ledger with no record for the event, a first
webhook call that completes processing leaves exactly one `processed`
record; a second call with the same `eventId` is detected as a duplicate
via `findByEventId`, answers `200 {received: true, duplicate: true}`
without re-invoking the business handler, and the ledger still holds
exactly one record for that `eventId`, with status `processed`. -/
theorem webhook_idempotency (db : Ledger) (e : StripeEvent) (hOk2 : Bool)
    (now1 now2 : Nat)
    (h : WebhookEventLogRepository.findByEventId db e.id = none) :
    (handleStripeWebhook db e true now1).resp = .success false
    ∧ (handleStripeWebhook db e true now1).trace
        = [.lookup e.id, .createRec e.id .processing, .runHandler e.id,
           .updateRec e.id .processed]
    ∧ WebhookEventLogRepository.findByEventId (handleStripeWebhook db e true now1).db e.id
        = some (finalRecord e now1 .processed none)
    ∧ StripeWebhookAdapter.isDuplicate (handleStripeWebhook db e true now1).db e.id = true
    ∧ (handleStripeWebhook (handleStripeWebhook db e true now1).db e hOk2 now2).resp
        = .success true
    ∧ (handleStripeWebhook (handleStripeWebhook db e true now1).db e hOk2 now2).trace
        = [PipeAct.lookup e.id]
    ∧ PipeAct.runHandler e.id
        ∉ (handleStripeWebhook (handleStripeWebhook db e true now1).db e hOk2 now2).trace
    ∧ (handleStripeWebhook (handleStripeWebhook db e true now1).db e hOk2 now2).db
        = (handleStripeWebhook db e true now1).db
    ∧ ((handleStripeWebhook (handleStripeWebhook db e true now1).db e hOk2 now2).db.filter
        fun r => r.event_id == e.id) = [finalRecord e now1 .processed none] := by
  have h1 := handle_new db e true now1 h
  have hnm := no_match_of_findByEventId_none db e.id h
  have hfind : WebhookEventLogRepository.findByEventId
      (handleStripeWebhook db e true now1).db e.id
      = some (finalRecord e now1 .processed none) := by
    rw [h1]
    show WebhookEventLogRepository.findByEventId
      (db ++ [finalRecord e now1 .processed none]) e.id = _
    rw [WebhookEventLogRepository.findByEventId]
    exact find?_append_of_none db _ _ h (by simp [finalRecord, logRecord])
  have hdup : StripeWebhookAdapter.isDuplicate (handleStripeWebhook db e true now1).db e.id
      = true := by
    rw [StripeWebhookAdapter.isDuplicate, hfind]
    rfl
  have h2 : handleStripeWebhook (handleStripeWebhook db e true now1).db e hOk2 now2
      = { resp := .success true
        , db := (handleStripeWebhook db e true now1).db
        , trace := [PipeAct.lookup e.id] } := by
    rw [handleStripeWebhook, hdup]
    simp
  have hfilter : ((handleStripeWebhook db e true now1).db.filter
      fun r => r.event_id == e.id) = [finalRecord e now1 .processed none] := by
    rw [h1]
    show ((db ++ [finalRecord e now1 .processed none]).filter
      fun r => r.event_id == e.id) = _
    rw [List.filter_append, filter_no_match db e.id hnm]
    simp [finalRecord, logRecord]
  refine ⟨by rw [h1]; simp, by rw [h1]; simp, hfind, hdup, by rw [h2], by rw [h2], ?_,
    by rw [h2], by rw [h2]; exact hfilter⟩
  rw [h2]
  simp

theorem webhook_idempotency_witness :
    (WebhookEventLogRepository.findByEventId [] "evt_1" = none)
    ∧ (handleStripeWebhook
        (handleStripeWebhook [] ⟨"evt_1", "payment_intent.succeeded", "payload"⟩ true 7).db
        ⟨"evt_1", "payment_intent.succeeded", "payload"⟩ false 9).resp = .success true
    ∧ ((handleStripeWebhook
        (handleStripeWebhook [] ⟨"evt_1", "payment_intent.succeeded", "payload"⟩ true 7).db
        ⟨"evt_1", "payment_intent.succeeded", "payload"⟩ false 9).db.filter
          fun r => r.event_id == "evt_1")
        = [finalRecord ⟨"evt_1", "payment_intent.succeeded", "payload"⟩ 7 .processed none] := by
  have h := webhook_idempotency [] ⟨"evt_1", "payment_intent.succeeded", "payload"⟩ false 7 9 rfl
  exact ⟨rfl, h.2.2.2.2.1, h.2.2.2.2.2.2.2.2⟩

/-! ### Connection Manager -/

theorem callerActions_done (states : List ConnMgrState) :
    callerActions states .done = [] := by
  cases states <;> rfl

theorem no_attempt_from_waiting (states : List ConnMgrState) :
    ConnAct.beginAttempt ∉ callerActions states .waiting := by
  induction states with
  | nil => simp [callerActions]
  | cons s rest ih =>
      rw [callerActions, if_neg (by simp)]
      cases hc : s.isConnecting with
      | true =>
          simp only [connectStep, hc, if_true]
          intro hmem
          rcases List.mem_cons.mp hmem with h | h
          · exact ConnAct.noConfusion h
          · exact ih h
      | false =>
          simp only [connectStep, hc, Bool.false_eq_true, if_false]
          intro hmem
          rcases List.mem_cons.mp hmem with h | h
          · exact ConnAct.noConfusion h
          · rw [callerActions_done] at h
            exact List.not_mem_nil _ h

/-- Claim C6: `connect()` is idempotent.  When a live connection exists,
the call returns that very connection immediately — its whole action
trace is the single return, with no attempt started.  When a connect
attempt is already in flight (`isConnecting`), a concurrent caller polls
and waits: it never emits `beginAttempt`, whatever the environment does
afterwards, and as soon as the guard drops it returns the then-current
connection rather than starting a second attempt. -/
theorem connect_idempotent (s : ConnMgrState) (c : Nat)
    (rest states : List ConnMgrState) :
    (s.connection = some c →
        connectStep s .start = (.ret (some c), .done)
      ∧ callerActions (s :: rest) .start = [ConnAct.ret (some c)])
    ∧ (s.connection = none → s.isConnecting = true →
        connectStep s .start = (.poll, .waiting)
      ∧ ConnAct.beginAttempt ∉ callerActions (s :: states) .start)
    ∧ (∀ s1 : ConnMgrState, s1.isConnecting = false →
        connectStep s1 .waiting = (.ret s1.connection, .done)) := by
  refine ⟨fun hc => ?_, fun hn hic => ?_, fun s1 h1 => ?_⟩
  · have hstep : connectStep s .start = (.ret (some c), .done) := by
      rw [connectStep, hc]
    refine ⟨hstep, ?_⟩
    rw [callerActions, if_neg (by simp)]
    simp only [hstep]
    rw [callerActions_done]
  · have hstep : connectStep s .start = (.poll, .waiting) := by
      rw [connectStep, hn]
      simp [hic]
    refine ⟨hstep, ?_⟩
    rw [callerActions, if_neg (by simp)]
    simp only [hstep]
    intro hmem
    rcases List.mem_cons.mp hmem with h | h
    · exact ConnAct.noConfusion h
    · exact no_attempt_from_waiting states h
  · rw [connectStep, h1]
    simp

theorem connect_idempotent_witness :
    (ConnMgrState.mk (some 0) false [] 1).connection = some 0
    ∧ callerActions [ConnMgrState.mk (some 0) false [] 1] .start = [ConnAct.ret (some 0)]
    ∧ (ConnMgrState.mk none true [] 0).connection = none
    ∧ (ConnMgrState.mk none true [] 0).isConnecting = true
    ∧ ConnAct.beginAttempt
        ∉ callerActions [ConnMgrState.mk none true [] 0, ConnMgrState.mk (some 0) false [] 1]
            .start :=
  ⟨rfl,
   ((connect_idempotent (ConnMgrState.mk (some 0) false [] 1) 0 [] []).1 rfl).2,
   rfl, rfl,
   ((connect_idempotent (ConnMgrState.mk none true [] 0) 0 []
      [ConnMgrState.mk (some 0) false [] 1]).2.1 rfl rfl).2⟩

theorem mem_deleteChan (chs : List (String × Nat)) (name : String) (p : String × Nat)
    (h : p ∈ deleteChan chs name) : p ∈ chs :=
  (List.mem_filter.mp h).1

theorem lookupChan_mem (chs : List (String × Nat)) (name : String) (g : Nat)
    (h : lookupChan chs name = some g) : ∃ p ∈ chs, p.2 = g := by
  induction chs with
  | nil => simp [lookupChan] at h
  | cons p rest ih =>
      rw [lookupChan] at h
      cases hp : p.1 == name with
      | true =>
          rw [hp, if_pos rfl] at h
          exact ⟨p, List.mem_cons_self p rest, Option.some_inj.mp h⟩
      | false =>
          rw [hp] at h
          simp only [Bool.false_eq_true, if_false] at h
          obtain ⟨q, hq, hg⟩ := ih h
          exact ⟨q, List.mem_cons_of_mem p hq, hg⟩

theorem genLB_mgrStep (bound : Nat) (s : ConnMgrState) (e : MgrEvt)
    (h : genLB bound s) : genLB bound (mgrStep s e).1 := by
  obtain ⟨h1, h2, h3⟩ := h
  cases e with
  | connectSuccess =>
      cases hc : s.connection with
      | some c =>
          simp only [mgrStep, hc, Option.isSome_some, if_true]
          exact ⟨h1, h2, h3⟩
      | none =>
          simp only [mgrStep, hc, Option.isSome_none, Bool.false_eq_true, if_false]
          refine ⟨Nat.le_succ_of_le h1, ?_, h3⟩
          intro g hg
          have hg2 : some s.nextGen = some g := hg
          rw [← Option.some_inj.mp hg2]
          exact h1
  | closeSignal =>
      refine ⟨h1, ?_, ?_⟩ <;> simp [mgrStep]
  | getChannel name =>
      cases hl : lookupChan s.channels name with
      | some g =>
          simp only [mgrStep, hl]
          exact ⟨h1, h2, h3⟩
      | none =>
          cases hc : s.connection with
          | some g =>
              simp only [mgrStep, hl, hc]
              refine ⟨h1, ?_, ?_⟩
              · intro g1 hg1
                have hg2 : some g = some g1 := hg1
                rw [← Option.some_inj.mp hg2]
                exact h2 g hc
              · intro p hp
                rcases List.mem_cons.mp hp with hdp | htp
                · rw [hdp]
                  exact h2 g hc
                · exact h3 p htp
          | none =>
              simp only [mgrStep, hl, hc]
              exact ⟨h1, h2, h3⟩
  | chanError name =>
      exact ⟨h1, h2, fun p hp => h3 p (mem_deleteChan s.channels name p hp)⟩
  | chanClose name =>
      exact ⟨h1, h2, fun p hp => h3 p (mem_deleteChan s.channels name p hp)⟩
  | closeChannelEvt name ok =>
      cases hl : lookupChan s.channels name with
      | none =>
          simp only [mgrStep, RabbitMQConnection.closeChannel, hl]
          exact ⟨h1, h2, h3⟩
      | some g =>
          cases ok with
          | true =>
              simp only [mgrStep, RabbitMQConnection.closeChannel, hl, if_true]
              exact ⟨h1, h2, fun p hp => h3 p (mem_deleteChan s.channels name p hp)⟩
          | false =>
              simp only [mgrStep, RabbitMQConnection.closeChannel, hl, Bool.false_eq_true,
                if_false]
              exact ⟨h1, h2, h3⟩

theorem genLB_runMgr (bound : Nat) (es : List MgrEvt) (s : ConnMgrState)
    (h : genLB bound s) : genLB bound (runMgr s es) := by
  induction es generalizing s with
  | nil => exact h
  | cons e es ih => exact ih _ (genLB_mgrStep bound s e h)

theorem returnedChannel_ge (bound : Nat) (s : ConnMgrState) (e : MgrEvt)
    (n : String) (g : Nat) (h : genLB bound s)
    (hr : (mgrStep s e).2.returnedChannel = some (n, g)) : bound ≤ g := by
  obtain ⟨h1, h2, h3⟩ := h
  cases e with
  | connectSuccess =>
      cases hc : s.connection <;> simp [mgrStep, hc] at hr
  | closeSignal => simp [mgrStep] at hr
  | getChannel name =>
      cases hl : lookupChan s.channels name with
      | some g1 =>
          simp only [mgrStep, hl] at hr
          obtain ⟨q, hq, hg⟩ := lookupChan_mem s.channels name g1 hl
          have : g1 = g := by
            have := Option.some_inj.mp hr
            exact congrArg Prod.snd this
          rw [← this, ← hg]
          exact h3 q hq
      | none =>
          cases hc : s.connection with
          | some cg =>
              simp only [mgrStep, hl, hc] at hr
              have : cg = g := by
                have := Option.some_inj.mp hr
                exact congrArg Prod.snd this
              rw [← this]
              exact h2 cg hc
          | none => simp [mgrStep, hl, hc] at hr
  | chanError name => simp [mgrStep] at hr
  | chanClose name => simp [mgrStep] at hr
  | closeChannelEvt name ok =>
      cases hl : lookupChan s.channels name with
      | none => simp [mgrStep, RabbitMQConnection.closeChannel, hl] at hr
      | some g1 =>
          cases ok <;>
            simp [mgrStep, RabbitMQConnection.closeChannel, hl] at hr

theorem connGenWF_mgrStep (s : ConnMgrState) (e : MgrEvt) (h : connGenWF s) :
    connGenWF (mgrStep s e).1 := by
  cases e with
  | connectSuccess =>
      cases hc : s.connection with
      | some c =>
          simp only [mgrStep, hc, Option.isSome_some, if_true]
          exact h
      | none =>
          simp only [mgrStep, hc, Option.isSome_none, Bool.false_eq_true, if_false]
          intro g hg
          have hg2 : some s.nextGen = some g := hg
          rw [← Option.some_inj.mp hg2]
          exact Nat.lt_succ_self s.nextGen
  | closeSignal =>
      intro g hg
      simp [mgrStep] at hg
  | getChannel name =>
      cases hl : lookupChan s.channels name with
      | some g1 =>
          simp only [mgrStep, hl]
          exact h
      | none =>
          cases hc : s.connection with
          | some cg =>
              simp only [mgrStep, hl, hc]
              intro g hg
              have hg2 : some cg = some g := hg
              rw [← Option.some_inj.mp hg2]
              exact h cg hc
          | none =>
              simp only [mgrStep, hl, hc]
              exact h
  | chanError name => exact h
  | chanClose name => exact h
  | closeChannelEvt name ok =>
      cases hl : lookupChan s.channels name with
      | none =>
          simp only [mgrStep, RabbitMQConnection.closeChannel, hl]
          exact h
      | some g1 =>
          cases ok with
          | true =>
              simp only [mgrStep, RabbitMQConnection.closeChannel, hl, if_true]
              exact h
          | false =>
              simp only [mgrStep, RabbitMQConnection.closeChannel, hl, Bool.false_eq_true,
                if_false]
              exact h

theorem connGenWF_runMgr (es : List MgrEvt) (s : ConnMgrState) (h : connGenWF s) :
    connGenWF (runMgr s es) := by
  induction es generalizing s with
  | nil => exact h
  | cons e es ih => exact ih _ (connGenWF_mgrStep s e h)

theorem reachable_connGenWF (s : ConnMgrState) (h : MgrReachable s) : connGenWF s := by
  obtain ⟨es, rfl⟩ := h
  exact connGenWF_runMgr es initialMgrState (fun g hg => by simp [initialMgrState] at hg)

/-- Claim C7: when the broker signals connection closure, the registered
`close` handler clears every cached channel and the connection handle and
schedules a reconnect after the fixed 10-second delay
(`reconnectTimeInSeconds * 1000 = 10000` ms); afterwards no channel
handle of the closed connection's generation is ever returned by
`getChannel` again — every channel returned later belongs to a strictly
newer connection generation. -/
theorem close_invalidates_channels (s : ConnMgrState) (gOld : Nat)
    (hreach : MgrReachable s) (hconn : s.connection = some gOld) :
    (mgrStep s .closeSignal).2.scheduledReconnectDelayMs = some 10000
    ∧ (mgrStep s .closeSignal).1.connection = none
    ∧ (mgrStep s .closeSignal).1.channels = []
    ∧ ∀ es e n g,
        (mgrStep (runMgr (mgrStep s .closeSignal).1 es) e).2.returnedChannel = some (n, g)
        → gOld < g ∧ g ≠ gOld := by
  refine ⟨rfl, rfl, rfl, ?_⟩
  intro es e n g hr
  have hwf : connGenWF s := reachable_connGenWF s hreach
  have hlt : gOld < s.nextGen := hwf gOld hconn
  have hlb : genLB s.nextGen (mgrStep s .closeSignal).1 := by
    refine ⟨?_, ?_, ?_⟩
    · show s.nextGen ≤ s.nextGen
      exact le_refl _
    · intro g1 hg1
      exact absurd hg1 (by simp [mgrStep])
    · intro p hp
      exact absurd hp (by simp [mgrStep])
  have hge : s.nextGen ≤ g :=
    returnedChannel_ge s.nextGen (runMgr (mgrStep s .closeSignal).1 es) e n g
      (genLB_runMgr s.nextGen es _ hlb) hr
  exact ⟨by omega, by omega⟩

theorem close_invalidates_channels_witness :
    MgrReachable (runMgr initialMgrState [MgrEvt.connectSuccess])
    ∧ (runMgr initialMgrState [MgrEvt.connectSuccess]).connection = some 0
    ∧ (mgrStep
        (runMgr
          (mgrStep (runMgr initialMgrState [MgrEvt.connectSuccess]) MgrEvt.closeSignal).1
          [MgrEvt.connectSuccess])
        (MgrEvt.getChannel "publisher")).2.returnedChannel = some ("publisher", 1)
    ∧ (0 < 1 ∧ (1 : Nat) ≠ 0) :=
  ⟨⟨[MgrEvt.connectSuccess], rfl⟩, rfl, rfl,
   (close_invalidates_channels (runMgr initialMgrState [MgrEvt.connectSuccess]) 0
      ⟨[MgrEvt.connectSuccess], rfl⟩ rfl).2.2.2
     [MgrEvt.connectSuccess] (MgrEvt.getChannel "publisher") "publisher" 1 rfl⟩

theorem lookupChan_deleteChan (chs : List (String × Nat)) (name : String) :
    lookupChan (deleteChan chs name) name = none := by
  induction chs with
  | nil => rfl
  | cons p rest ih =>
      rw [deleteChan, List.filter_cons]
      cases hp : p.1 == name with
      | true =>
          simp only [bne, hp, Bool.not_true, Bool.false_eq_true, if_false]
          exact ih
      | false =>
          simp only [bne, hp, Bool.not_false, if_true]
          rw [lookupChan, hp]
          simp only [Bool.false_eq_true, if_false]
          exact ih

/-- Counterexample to claim C9 as stated: when the underlying
`channel.close()` throws, `closeChannel` swallows the error but skips the
`this.channels.delete(name)` that follows the `await` — so after the call
the channel is still present in the cache. -/
theorem closeChannel_eviction_counterexample :
    RabbitMQConnection.closeChannel closeErrState "publisher" false = .ok closeErrState
    ∧ lookupChan closeErrState.channels "publisher" = some 0
    ∧ ("publisher", 0) ∈ closeErrState.channels :=
  ⟨rfl, rfl, by simp [closeErrState]⟩

/-- Claim C9 (amended): `closeChannel(name)` never propagates an error to
its caller; the named channel is evicted from the cache when the
underlying close succeeds (and is absent if it was already absent), but
when the underlying close throws, the entry remains in the cache — the
eviction is skipped, the map is left unchanged. -/
theorem closeChannel_best_effort (s : ConnMgrState) (name : String) (closeOk : Bool) :
    (∃ s1, RabbitMQConnection.closeChannel s name closeOk = .ok s1)
    ∧ ∀ s1, RabbitMQConnection.closeChannel s name closeOk = .ok s1 →
        (closeOk = true → lookupChan s1.channels name = none)
        ∧ (lookupChan s.channels name = none → s1 = s)
        ∧ (closeOk = false → s1 = s) := by
  cases hl : lookupChan s.channels name with
  | none =>
      refine ⟨⟨s, by rw [RabbitMQConnection.closeChannel, hl]⟩, ?_⟩
      intro s1 h1
      rw [RabbitMQConnection.closeChannel, hl] at h1
      have hs : s = s1 := Except.ok.inj h1
      refine ⟨fun _ => ?_, fun _ => hs.symm, fun _ => hs.symm⟩
      rw [← hs]
      exact hl
  | some g =>
      cases closeOk with
      | true =>
          refine ⟨⟨{ s with channels := deleteChan s.channels name },
            by rw [RabbitMQConnection.closeChannel, hl]; rfl⟩, ?_⟩
          intro s1 h1
          rw [RabbitMQConnection.closeChannel, hl] at h1
          simp only [if_true] at h1
          have hs : { s with channels := deleteChan s.channels name } = s1 :=
            Except.ok.inj h1
          refine ⟨fun _ => ?_, fun hnone => ?_, fun hfalse => Bool.noConfusion hfalse⟩
          · rw [← hs]
            exact lookupChan_deleteChan s.channels name
          · exact absurd hnone (by simp)
      | false =>
          refine ⟨⟨s, by rw [RabbitMQConnection.closeChannel, hl]; rfl⟩, ?_⟩
          intro s1 h1
          rw [RabbitMQConnection.closeChannel, hl] at h1
          simp only [Bool.false_eq_true, if_false] at h1
          have hs : s = s1 := Except.ok.inj h1
          exact ⟨fun htrue => Bool.noConfusion htrue, fun _ => hs.symm, fun _ => hs.symm⟩

theorem closeChannel_best_effort_witness :
    RabbitMQConnection.closeChannel closeErrState "publisher" false = .ok closeErrState
    ∧ closeErrState = closeErrState
    ∧ lookupChan ({ closeErrState with
        channels := deleteChan closeErrState.channels "publisher" }).channels "publisher"
      = none :=
  ⟨rfl,
   ((closeChannel_best_effort closeErrState "publisher" false).2 closeErrState rfl).2.2 rfl,
   ((closeChannel_best_effort closeErrState "publisher" true).2
      { closeErrState with channels := deleteChan closeErrState.channels "publisher" }
      rfl).1 rfl⟩
